import Mathlib

/-!
Verification of the PixlCore.com content fetch-render-cache pipeline
(`lib/api.js`) against its natural-language specification.

The JavaScript source is shallowly embedded: strings are Lean `String`s
(lists of characters), the mutable LRU cache is explicit state threaded
through each operation, asynchronous callbacks become `Except`-valued
results, and the regex-driven scanners of the source are translated into
executable character-list scanners with the same matching semantics.
-/

set_option maxRecDepth 4096

/-! ## Bounded LRU cache

Modelled from the spec: the cache implementation itself (the `pixl-cache`
dependency constructed in `startup`) is not part of the repository source,
so it is modelled from §4.1 "Bounded Cache" of the specification: entries
carry a key, a value, the computed byte size of the value, and an expiry
deadline stamped at insertion; `set` inserts/replaces at the
most-recently-used position and then evicts least-recently-used entries
while the entry count or total byte size exceeds the budget, never
evicting the entry just inserted (the spec: an oversized single value "is
simply stored and may immediately evict everything else"); `get` returns
an unexpired entry and refreshes its recency; an entry whose TTL has
elapsed is treated as absent. -/

structure CacheEntry where
  key : String
  value : String
  size : Nat
  expires : Nat
deriving Repr, DecidableEq

/-- Total resident bytes across a list of cache entries. -/
def totalBytes : List CacheEntry → Nat
  | [] => 0
  | e :: rest => e.size + totalBytes rest

/-- Modelled from the spec: the bounded LRU cache state.  `entries` is
ordered most-recently-used first. -/
structure LRUCache where
  entries : List CacheEntry
  maxItems : Nat
  maxBytes : Nat
  maxAge : Nat
deriving Repr, DecidableEq

/-- Modelled from the spec: the eviction scan.  Keeps the longest
most-recently-used-first run of entries that stays within both budgets;
`cnt`/`bytes` accumulate the count and bytes of entries already kept. -/
def takeWithin (mi mb : Nat) (cnt bytes : Nat) : List CacheEntry → List CacheEntry
  | [] => []
  | e :: rest =>
    if cnt + 1 ≤ mi ∧ bytes + e.size ≤ mb then
      e :: takeWithin mi mb (cnt + 1) (bytes + e.size) rest
    else []

/-- Modelled from the spec: evict least-recently-used entries while over
either budget, but never the most-recently-used entry itself. -/
def evictLRU (mi mb : Nat) : List CacheEntry → List CacheEntry
  | [] => []
  | e :: rest => e :: takeWithin mi mb 1 e.size rest

/-- Modelled from the spec: `set(key, value)` — replace any entry for the
key, insert at the most-recently-used position with the computed byte size
of the value and an expiry deadline `now + maxAge`, then evict while over
budget. -/
def LRUCache.set (c : LRUCache) (now : Nat) (key value : String) : LRUCache :=
  let rest := c.entries.filter (fun e => e.key ≠ key)
  let e : CacheEntry := { key := key, value := value, size := value.length,
                          expires := now + c.maxAge }
  { c with entries := evictLRU c.maxItems c.maxBytes (e :: rest) }

/-- Modelled from the spec: look up the unexpired entry for a key
("an entry older than its expiry deadline is treated as absent";
`has(key)` becomes false once the TTL has elapsed). -/
def LRUCache.findEntry (c : LRUCache) (now : Nat) (key : String) : Option CacheEntry :=
  c.entries.find? (fun e => e.key == key && decide (now < e.expires))

/-- Modelled from the spec: `has(key)` — true iff an unexpired entry exists. -/
def LRUCache.has (c : LRUCache) (now : Nat) (key : String) : Bool :=
  (c.findEntry now key).isSome

/-- Modelled from the spec: the recency refresh a successful `get`
performs: the accessed entry moves to the most-recently-used position. -/
def LRUCache.touch (c : LRUCache) (now : Nat) (key : String) : LRUCache :=
  match c.findEntry now key with
  | some e => { c with entries := e :: c.entries.filter (fun x => x.key ≠ key) }
  | none => c

/-- The cache configured in `startup` (`lib/api.js` lines 38-42):
`maxAge: 86400, maxItems: 5000, maxBytes: 1024 * 1024 * 50`. -/
def apiStartupCache : LRUCache :=
  { entries := [], maxItems := 5000, maxBytes := 1024 * 1024 * 50, maxAge := 86400 }

/-- Apply a sequence of `set` calls `(now, key, value)` in order. -/
def applySets (c : LRUCache) : List (Nat × String × String) → LRUCache
  | [] => c
  | (now, k, v) :: rest => applySets (c.set now k v) rest

/-- A 50 MB + 1 byte value: a single `set` of this value breaks the byte
budget of the startup cache. -/
def oversizedValue : String := String.mk (List.replicate (1024 * 1024 * 50 + 1) 'a')

/-! ## Character classes of the JavaScript regexes in `lib/api.js` -/

/-- JS `\w`: `[A-Za-z0-9_]`. -/
def isWordChar (c : Char) : Bool :=
  ('a' ≤ c ∧ c ≤ 'z') ∨ ('A' ≤ c ∧ c ≤ 'Z') ∨ ('0' ≤ c ∧ c ≤ '9') ∨ c = '_'

/-- JS `\s` (the characters relevant here): space, tab, newline, carriage
return, vertical tab, form feed, no-break space, BOM. -/
def jsWsChar (c : Char) : Bool :=
  c = ' ' ∨ c = '\t' ∨ c = '\n' ∨ c = '\r' ∨ c = '\x0b' ∨ c = '\x0c' ∨
  c = ' ' ∨ c = '﻿'

/-- JS `.` (without the `s` flag): any character except a line terminator. -/
def jsDotChar (c : Char) : Bool :=
  ¬ (c = '\n' ∨ c = '\r' ∨ c = ' ' ∨ c = ' ')

/-- Does `pat` occur at the head of `l`? -/
def beginsWith : List Char → List Char → Bool
  | [], _ => true
  | _ :: _, [] => false
  | p :: ps, c :: cs => p = c ∧ beginsWith ps cs

/-- Does `pat` occur at the end of `l`? -/
def endsWithChars (pat l : List Char) : Bool :=
  beginsWith pat.reverse l.reverse

/-- Does `pat` occur anywhere inside `l`? -/
def containsSub (pat : List Char) : List Char → Bool
  | [] => beginsWith pat []
  | c :: rest => beginsWith pat (c :: rest) || containsSub pat rest

/-! ## Word-count pipeline (`preloadBlog`, `lib/api.js` line 76)

`text.replace(/<.+?>/g, '').replace(/```[\S\s]+?```/g, '')
     .replace(/\[([^\]]+)\]\(([^\)]+)\)/g, '$1').match(/\w+/g).length`

Each `replace` is embedded as a left-to-right scan with the exact
lazy-match semantics of the regex; the scans carry a fuel argument (always
called with the input length, which every step strictly decreases, so the
fuel never runs out) to stay structurally recursive. -/

/-- Scan for the `>` closing a `<.+?>` match: the first `>` may be
preceded only by non-line-terminator characters.  Returns the suffix after
the `>`. -/
def tagCloseScan : List Char → Option (List Char)
  | [] => none
  | c :: rest =>
    if c = '>' then some rest
    else if jsDotChar c then tagCloseScan rest
    else none

/-- Lazy match of `<.+?>` immediately after a `<`: at least one inner
character (any non-line-terminator, including `>`), then the nearest `>`.  -/
def findTagEnd : List Char → Option (List Char)
  | [] => none
  | c :: rest => if jsDotChar c then tagCloseScan rest else none

/-- Global replace of `/<.+?>/g` with the empty string. -/
def stripTagsAux : Nat → List Char → List Char
  | 0, l => l
  | _ + 1, [] => []
  | fuel + 1, c :: rest =>
    if c = '<' then
      match findTagEnd rest with
      | some after => stripTagsAux fuel after
      | none => c :: stripTagsAux fuel rest
    else c :: stripTagsAux fuel rest

def stripTags (l : List Char) : List Char := stripTagsAux l.length l

/-- Scan for the first occurrence of three backticks; returns the suffix
after them. -/
def fenceTicksScan : List Char → Option (List Char)
  | '`' :: '`' :: '`' :: rest => some rest
  | _ :: rest => fenceTicksScan rest
  | [] => none

/-- Lazy match of the closing fence of `/```[\S\s]+?```/`: at least one
inner character (any character), then the nearest three backticks. -/
def findFenceClose : List Char → Option (List Char)
  | [] => none
  | _ :: rest => fenceTicksScan rest

/-- Global replace of `/```[\S\s]+?```/g` with the empty string. -/
def stripFencesAux : Nat → List Char → List Char
  | 0, l => l
  | _ + 1, [] => []
  | fuel + 1, '`' :: '`' :: '`' :: rest =>
    (match findFenceClose rest with
     | some after => stripFencesAux fuel after
     | none => '`' :: stripFencesAux fuel ('`' :: '`' :: rest))
  | fuel + 1, c :: rest => c :: stripFencesAux fuel rest

def stripFences (l : List Char) : List Char := stripFencesAux l.length l

/-- Split at the first occurrence of `stop`: returns the (possibly empty)
run before it and the suffix after it. -/
def splitAtStop (stop : Char) : List Char → Option (List Char × List Char)
  | [] => none
  | c :: rest =>
    if c = stop then some ([], rest)
    else
      match splitAtStop stop rest with
      | some (run, rest2) => some (c :: run, rest2)
      | none => none

/-- Match of `\[([^\]]+)\]\(([^\)]+)\)` just after a `[`: nonempty link
text free of `]`, then `](`, then a nonempty URL free of `)`, then `)`.
Returns the captured text and the suffix after the `)`. -/
def linkAt (l : List Char) : Option (List Char × List Char) :=
  match splitAtStop ']' l with
  | some (text, rest) =>
    if text = [] then none
    else
      match rest with
      | '(' :: rest2 =>
        (match splitAtStop ')' rest2 with
         | some (url, rest3) => if url = [] then none else some (text, rest3)
         | none => none)
      | _ => none
  | none => none

/-- Global replace of `/\[([^\]]+)\]\(([^\)]+)\)/g` with `$1` (the link
text); the replacement is not rescanned. -/
def collapseLinksAux : Nat → List Char → List Char
  | 0, l => l
  | _ + 1, [] => []
  | fuel + 1, c :: rest =>
    if c = '[' then
      match linkAt rest with
      | some (text, after) => text ++ collapseLinksAux fuel after
      | none => c :: collapseLinksAux fuel rest
    else c :: collapseLinksAux fuel rest

def collapseLinks (l : List Char) : List Char := collapseLinksAux l.length l

/-- The three strips of the word-count pipeline, in source order. -/
def stripAll (s : String) : List Char :=
  collapseLinks (stripFences (stripTags s.data))

/-- Extend the first run of a run list with a leading character. -/
def glueRun (c : Char) : List (List Char) → List (List Char)
  | r :: rs => (c :: r) :: rs
  | [] => [[c]]

/-- `match(/\w+/g)`: the list of maximal runs of word characters. -/
def wordRuns : List Char → List (List Char)
  | [] => []
  | c :: rest =>
    if isWordChar c then
      match rest with
      | [] => [[c]]
      | d :: _ =>
        if isWordChar d then glueRun c (wordRuns rest)
        else [c] :: wordRuns rest
    else wordRuns rest

/-- The word count computed by `preloadBlog`: `match(/\w+/g)` returns
`null` when there is no match (modelled as `none`; accessing `.length`
then throws), otherwise the number of matches. -/
def jsWordCount (s : String) : Option Nat :=
  match wordRuns (stripAll s) with
  | [] => none
  | rs => some rs.length

/-- Independent count of the maximal word-character runs of a string:
the number of positions where a word character follows a non-word
character (or starts the string). -/
def risingEdges (prev : Bool) : List Char → Nat
  | [] => 0
  | c :: rest => (if isWordChar c && !prev then 1 else 0) + risingEdges (isWordChar c) rest

/-- Definition following the spec's words for C8: the number of
whitespace-delimited word tokens of a string, i.e. the number of maximal
runs of non-whitespace characters. -/
def wsTokenEdges (prev : Bool) : List Char → Nat
  | [] => 0
  | c :: rest => (if !jsWsChar c && !prev then 1 else 0) + wsTokenEdges (!jsWsChar c) rest

def wsTokenCount (l : List Char) : Nat := wsTokenEdges false l

/-! ## Front-matter extraction (`preloadBlog`, `lib/api.js` lines 79-84)

`text.replace(/<\!--\s*(\w+):\s*(.+?)\s*-->/g, ...)` assigns every matched
`Key: Value` comment onto the article object under the lower-cased key;
only the five keys consumed downstream (title, summary, author, date,
tags) are tracked here.  Then
`article.date = Math.floor((new Date(article.date + ' 00:00:00')).getTime() / 1000)`
and `article.tags = article.tags.split(/\,\s*/)`. -/

def skipWs (l : List Char) : List Char := l.dropWhile jsWsChar

/-- `\s*-->` starting here; returns the suffix after the `-->`. -/
def wsThenArrow : List Char → Option (List Char)
  | '-' :: '-' :: '>' :: rest => some rest
  | c :: rest => if jsWsChar c then wsThenArrow rest else none
  | [] => none

/-- Lazy match of `(.+?)\s*-->`: the shortest nonempty run of
non-line-terminator characters followed by optional whitespace and `-->`.
Returns the captured value and the suffix after the `-->`. -/
def matchMetaValue : List Char → Option (List Char × List Char)
  | [] => none
  | c :: rest =>
    if jsDotChar c then
      match wsThenArrow rest with
      | some after => some ([c], after)
      | none =>
        match matchMetaValue rest with
        | some (v, after) => some (c :: v, after)
        | none => none
    else none

/-- `\s*(.+?)\s*-->` with the backtracking of the greedy leading `\s*`:
prefer to skip as much whitespace as possible, falling back to letting the
value start inside the whitespace run when no match is possible
otherwise. -/
def matchWsValue : List Char → Option (List Char × List Char)
  | [] => none
  | c :: rest =>
    if jsWsChar c then
      match matchWsValue rest with
      | some r => some r
      | none => matchMetaValue (c :: rest)
    else matchMetaValue (c :: rest)

/-- Attempt the full `<\!--\s*(\w+):\s*(.+?)\s*-->` match at the head of
`l`; returns captured key, captured value and the suffix after the match. -/
def tryMeta (l : List Char) : Option (List Char × List Char × List Char) :=
  if beginsWith "<!--".data l then
    let r1 := skipWs (l.drop 4)
    let key := r1.takeWhile isWordChar
    if key = [] then none
    else
      match r1.drop key.length with
      | ':' :: r2 =>
        (match matchWsValue r2 with
         | some (v, after) => some (key, v, after)
         | none => none)
      | _ => none
  else none

/-- The five front-matter fields consumed downstream; `none` models a
JavaScript property that was never assigned (`undefined`). -/
structure RawMeta where
  title : Option String := none
  summary : Option String := none
  author : Option String := none
  date : Option String := none
  tags : Option String := none
deriving Repr, DecidableEq

def assignMeta (m : RawMeta) (key value : List Char) : RawMeta :=
  let k := key.map Char.toLower
  if k = "title".data then { m with title := some (String.mk value) }
  else if k = "summary".data then { m with summary := some (String.mk value) }
  else if k = "author".data then { m with author := some (String.mk value) }
  else if k = "date".data then { m with date := some (String.mk value) }
  else if k = "tags".data then { m with tags := some (String.mk value) }
  else m

/-- Global scan of the front-matter regex over the whole text, assigning
each match in order (a later match for the same key overwrites). -/
def metaScanAux : Nat → RawMeta → List Char → RawMeta
  | 0, m, _ => m
  | _ + 1, m, [] => m
  | fuel + 1, m, c :: rest =>
    match tryMeta (c :: rest) with
    | some (key, value, after) => metaScanAux fuel (assignMeta m key value) after
    | none => metaScanAux fuel m rest

def extractMeta (s : String) : RawMeta := metaScanAux s.data.length {} s.data

/-! ## Date normalization and tag splitting -/

def parseNatDigits (l : List Char) : Nat :=
  l.foldl (fun a c => a * 10 + (c.toNat - '0'.toNat)) 0

def isLeapYear (y : Nat) : Bool := (y % 4 = 0 ∧ y % 100 ≠ 0) ∨ y % 400 = 0

def daysInMonth (y m : Nat) : Nat :=
  if m = 1 ∨ m = 3 ∨ m = 5 ∨ m = 7 ∨ m = 8 ∨ m = 10 ∨ m = 12 then 31
  else if m = 4 ∨ m = 6 ∨ m = 9 ∨ m = 11 then 30
  else if isLeapYear y then 29 else 28

def monthDaysBefore (y m : Nat) : Nat :=
  (List.range (m - 1)).foldl (fun a i => a + daysInMonth y (i + 1)) 0

/-- Day index of a proleptic-Gregorian civil date, counted from 0001-01-01. -/
def dayNumber (y m d : Nat) : Nat :=
  365 * (y - 1) + (y - 1) / 4 - (y - 1) / 100 + (y - 1) / 400
    + monthDaysBefore y m + (d - 1)

/-- Days since the Unix epoch of a civil date. -/
def epochDays (y m d : Nat) : Int := (dayNumber y m d : Int) - (dayNumber 1970 1 1 : Int)

/-- Seconds since the Unix epoch of local midnight of a civil date, for a
process whose local timezone is `tz` seconds east of UTC. -/
def localMidnightEpoch (tz : Int) (y m d : Nat) : Int := 86400 * epochDays y m d - tz

def parseYMD (l : List Char) : Option (Nat × Nat × Nat × List Char) :=
  let ys := l.takeWhile Char.isDigit
  if ys = [] then none else
  match l.drop ys.length with
  | '/' :: r1 =>
    let ms := r1.takeWhile Char.isDigit
    if ms = [] then none else
    (match r1.drop ms.length with
     | '/' :: r2 =>
       let ds := r2.takeWhile Char.isDigit
       if ds = [] then none else
       some (parseNatDigits ys, parseNatDigits ms, parseNatDigits ds, r2.drop ds.length)
     | _ => none)
  | _ => none

/-- Modelled from the spec: `new Date(str + ' 00:00:00')` — the
JavaScript engine's non-ISO date parse, which the spec describes as
"parsed as `YYYY/MM/DD` at midnight local time and converted to
seconds-since-epoch"; a string not of that shape (or with out-of-range
fields) yields an Invalid Date, whose epoch is NaN (modelled as `none`). -/
def jsDateEpochLocal (tz : Int) (s : String) : Option Int :=
  match parseYMD s.data with
  | some (y, m, d, rest) =>
    if rest = " 00:00:00".data ∧ 1 ≤ y ∧ 1 ≤ m ∧ m ≤ 12 ∧ 1 ≤ d ∧ d ≤ daysInMonth y m
    then some (localMidnightEpoch tz y m d)
    else none
  | none => none

/-- `split(/\,\s*/)`: split on a comma together with the whitespace run
following it.  `skipws` records that we are just past a comma and still
consuming its trailing whitespace. -/
def splitTagsAux : Bool → List Char → List Char → List String
  | _, cur, [] => [String.mk cur.reverse]
  | _, cur, ',' :: rest => String.mk cur.reverse :: splitTagsAux true [] rest
  | skipws, cur, c :: rest =>
    if skipws ∧ jsWsChar c then splitTagsAux true cur rest
    else splitTagsAux false (c :: cur) rest

def jsSplitTags (s : String) : List String := splitTagsAux false [] s.data

/-! ## Per-article processing (`preloadBlog` iterator body) -/

structure Article where
  slug : String
  words : Nat
  title : Option String
  summary : Option String
  author : Option String
  date : Option Int
  tags : List String
deriving Repr, DecidableEq

/-- The body of the `preloadBlog` iterator after a successful fetch, for
a process whose local timezone is `tz` seconds east of UTC.  An `error`
is a thrown JavaScript exception (not a callback error): accessing
`.length` on a `null` `match` result, or calling `.split` on an
`undefined` `tags` field, both throw `TypeError`.  A missing `date` does
not throw: `new Date("undefined 00:00:00")` is an Invalid Date and
`Math.floor(NaN)` is `NaN` (modelled as `none`); missing `title`,
`summary` or `author` are stored as absent properties. -/
def processArticle (tz : Int) (slug text : String) : Except String Article :=
  match jsWordCount text with
  | none => Except.error "TypeError: Cannot read properties of null"
  | some w =>
    let m := extractMeta text
    let date :=
      match m.date with
      | some ds => jsDateEpochLocal tz (ds ++ " 00:00:00")
      | none => none
    match m.tags with
    | none => Except.error "TypeError: Cannot read properties of undefined"
    | some ts =>
      Except.ok { slug := slug, words := w, title := m.title, summary := m.summary,
                  author := m.author, date := date, tags := jsSplitTags ts }

/-! ## Debug-mode blog URL detection (`get_cached_url`, line 339)

`url.match(/\/pixlcore\/blog\/main\/(.+)\.md$/)`: the capture is
everything between the first viable occurrence of `/pixlcore/blog/main/`
and the final `.md`, nonempty and free of line terminators. -/

/-- Does `pat` occur at the end of `l`? (restated as a plain recursion) -/
def dropLastN (n : Nat) (l : List Char) : List Char := l.take (l.length - n)

def blogSlugFrom : List Char → Option (List Char)
  | [] => none
  | c :: rest =>
    let l := c :: rest
    if beginsWith "/pixlcore/blog/main/".data l then
      let suf := l.drop 20
      let mid := dropLastN 3 suf
      if endsWithChars ".md".data suf ∧ 4 ≤ suf.length ∧ mid.all jsDotChar
      then some mid
      else blogSlugFrom rest
    else blogSlugFrom rest

/-- The captured slug of `/\/pixlcore\/blog\/main\/(.+)\.md$/`, when the
URL matches. -/
def blogSlugOf (url : String) : Option String :=
  (blogSlugFrom url.data).map String.mk

/-- The raw-content URL preloaded and served for a blog slug
(`lib/api.js` lines 62 and 276). -/
def blogUrlOf (slug : String) : String :=
  "https://raw.githubusercontent.com/pixlcore/blog/main/" ++ slug ++ ".md"

/-- The local file read in debug mode (`lib/api.js` line 341). -/
def localPathOf (slug : String) : String :=
  "/Users/jhuckaby/git/blog/" ++ slug ++ ".md"

/-! ## The fetch/render layer (`get_cached_url`, `get_cached_html`)

The HTTP client (`pixl-request`) and the filesystem are external to the
pipeline; they are modelled as a static environment mapping a URL (or
file path) to either an error or a body.  `marked.parse` is an external
library call and is passed in as an opaque `render` function. -/

structure FetchEnv where
  net : String → Except String String
  fsread : String → Except String String

/-- `get_cached_url` (`lib/api.js` lines 334-366): in debug mode a URL
matching the blog pattern is read from the local filesystem, bypassing
the cache entirely; otherwise an unexpired cached body is returned (with
its recency refreshed), and on a miss the URL is fetched, cached on
success, and errors are propagated without caching. -/
def get_cached_url (debug : Bool) (env : FetchEnv) (c : LRUCache) (now : Nat)
    (url : String) : Except String String × LRUCache :=
  match debug, blogSlugOf url with
  | true, some slug => (env.fsread (localPathOf slug), c)
  | _, _ =>
    match c.findEntry now url with
    | some e => (Except.ok e.value, c.touch now url)
    | none =>
      match env.net url with
      | Except.error e => (Except.error e, c)
      | Except.ok text => (Except.ok text, c.set now url text)

/-- `get_cached_html` (`lib/api.js` lines 300-332): the rendered-HTML
cache key is `'MARKED:' + url`; an unexpired cached rendering is returned
first (before any debug check); otherwise the raw text is obtained via
`get_cached_url`, rendered, and the rendering is cached unless running in
debug mode. -/
def get_cached_html (debug : Bool) (render : String → String) (env : FetchEnv)
    (c : LRUCache) (now : Nat) (url : String) : Except String String × LRUCache :=
  let cache_id := "MARKED:" ++ url
  match c.findEntry now cache_id with
  | some e => (Except.ok e.value, c.touch now cache_id)
  | none =>
    match get_cached_url debug env c now url with
    | (Except.error e, c2) => (Except.error e, c2)
    | (Except.ok text, c2) =>
      let html := render text
      if debug then (Except.ok html, c2)
      else (Except.ok html, c2.set now cache_id html)

/-! ## Startup preload (`preloadBlog`, `lib/api.js` lines 55-92)

Modelled from the spec for the iteration combinator: `async.eachLimit`
is an external library whose contract §4.5 describes — each configured
slug is fetched and parsed, and if any single step passes an error to its
callback the whole operation finishes with that error (fail-fast).  The
bounded fan-out (8 in flight) only affects scheduling, not which
callbacks fire, so the iteration is embedded sequentially.  A thrown
exception inside an iterator crashes the process instead of reaching the
final callback; that outcome is kept distinct. -/

inductive PreloadOutcome where
  | ok (articles : List (String × Article)) (cache : LRUCache)
  | cberr (e : String) (cache : LRUCache)
  | crashed (e : String)
deriving Repr, DecidableEq

def preloadBlogAux (tz : Int) (debug : Bool) (env : FetchEnv) :
    List String → List (String × Article) → LRUCache → Nat → PreloadOutcome
  | [], arts, c, _ => PreloadOutcome.ok arts c
  | slug :: rest, arts, c, now =>
    match get_cached_url debug env c now (blogUrlOf slug) with
    | (Except.error e, c2) => PreloadOutcome.cberr e c2
    | (Except.ok text, c2) =>
      match processArticle tz slug text with
      | Except.error e => PreloadOutcome.crashed e
      | Except.ok a =>
        preloadBlogAux tz debug env rest
          (arts.filter (fun p => p.1 ≠ slug) ++ [(slug, a)]) c2 now

/-- `preloadBlog` run at startup: empty article index, the cache as
configured by `startup`. -/
def preloadBlog (tz : Int) (debug : Bool) (env : FetchEnv) (slugs : List String) :
    PreloadOutcome :=
  preloadBlogAux tz debug env slugs [] apiStartupCache 0

/-! ## The blockquote admonition renderer (`lib/api.js` lines 18-33) -/

/-- JS `String.prototype.trim`. -/
def jsTrim (l : List Char) : List Char :=
  ((l.dropWhile jsWsChar).reverse.dropWhile jsWsChar).reverse

/-- `html.replace(/^<p>([\s\S]+)<\/p>$/, '$1')`: strip one outer
paragraph wrapper when the whole string is wrapped and the inside is
nonempty. -/
def stripPara (l : List Char) : List Char :=
  if beginsWith "<p>".data l ∧ endsWithChars "</p>".data l ∧ 8 ≤ l.length
  then dropLastN 4 (l.drop 3)
  else l

/-- `Tools.ucfirst` (external `pixl-tools` helper): upper-case the first
character, lower-case the rest. -/
def ucfirst (l : List Char) : List Char :=
  match l with
  | [] => []
  | c :: rest => c.toUpper :: rest.map Char.toLower

/-- The admonition icon table (`lib/api.js` line 25); a keyword outside
the table interpolates JavaScript `undefined` into the class name. -/
def admonitionIcon (ty : List Char) : List Char :=
  if ty = "note".data then "information-outline".data
  else if ty = "tip".data then "lightbulb-on-outline".data
  else if ty = "important".data then "alert-decagram".data
  else if ty = "warning".data then "alert-circle".data
  else if ty = "caution".data then "fire-alert".data
  else "undefined".data

/-- Match of `/^\[\!(\w+)\]\s*/`: `[!`, a nonempty keyword of word
characters, `]`, then any whitespace, all to be stripped.  Returns the
keyword and the remainder. -/
def admonitionMatch (l : List Char) : Option (List Char × List Char) :=
  match l with
  | '[' :: '!' :: r1 =>
    let kw := r1.takeWhile isWordChar
    if kw = [] then none
    else
      match r1.drop kw.length with
      | ']' :: r2 => some (kw, skipWs r2)
      | _ => none
  | _ => none

/-- The admonition block template of the custom blockquote renderer
(`lib/api.js` line 29). -/
def admonitionHtml (ty icon title body : List Char) : String :=
  String.mk ("<div class=\"blocknote ".data ++ ty ++ "\"><div class=\"bn_title\"><i class=\"mdi mdi-".data
    ++ icon ++ "\">&nbsp;</i>".data ++ title
    ++ "</div><div class=\"bn_content\">".data ++ body ++ "</div></div>".data)

/-- The custom `marked` blockquote renderer installed at module load
(`lib/api.js` lines 18-33). -/
def blockquoteRender (html : String) : String :=
  let h1 := stripPara (jsTrim html.data)
  match admonitionMatch h1 with
  | some (kw, body) =>
    let ty := kw.map Char.toLower
    admonitionHtml ty (admonitionIcon ty) (ucfirst ty) body
  | none => String.mk ("<blockquote>".data ++ h1 ++ "</blockquote>".data)

/-! ## The blog page handler (`handle_blog`, `lib/api.js` lines 263-298)

The HTML templating of the success path (JSON payload substituted into
the static page template) is presentation; the handler result is modelled
as the response class with the data the handler passes to it. -/

inductive BlogResponse where
  | notFound (msg : String)
  | ok (slug : String) (article : Article) (archives : List Article) (body : String)
deriving Repr, DecidableEq

def lookupArticle (articles : List (String × Article)) (slug : String) : Option Article :=
  (articles.find? (fun p => p.1 = slug)).map (fun p => p.2)

def handle_blog (debug : Bool) (render : String → String) (env : FetchEnv)
    (articles : List (String × Article)) (order : List String)
    (c : LRUCache) (now : Nat) (slug : String) : BlogResponse × LRUCache :=
  match lookupArticle articles slug with
  | none => (BlogResponse.notFound ("Unable to locate the requested article: " ++ slug), c)
  | some article =>
    let archives := order.filterMap (fun s => lookupArticle articles s)
    match get_cached_html debug render env c now (blogUrlOf slug) with
    | (Except.error _, c2) => (BlogResponse.notFound "Unable to locate the requested file.", c2)
    | (Except.ok html, c2) => (BlogResponse.ok slug article archives html, c2)

/-! ## Concrete inputs for the claim theorems -/

/-- The front-matter comment block of C7 (spec §8 "Front-matter round
trip"), joined by single spaces. -/
def frontMatterDoc : String :=
  "<!-- Title: X --> <!-- Summary: Y --> <!-- Author: a --> <!-- Date: 2024/01/01 --> <!-- Tags: A, B -->"

/-- The same comment block followed by body text containing word tokens. -/
def frontMatterDocBody : String := frontMatterDoc ++ "\nhello world"

/-- A fetched article source with no `Title` front-matter comment. -/
def noTitleDoc : String := "<!-- Date: 2024/01/01 -->\n<!-- Tags: A, B -->\nhello"

/-- A fetched article source with no `Tags` front-matter comment. -/
def noTagsDoc : String := "<!-- Date: 2024/01/01 -->\nhello"

def cannedEnv (url text : String) : FetchEnv :=
  { net := fun u => if u = url then Except.ok text else Except.error "socket error",
    fsread := fun _ => Except.error "ENOENT" }

instance {e a : Type} [DecidableEq e] [DecidableEq a] : DecidableEq (Except e a)
  | Except.ok x, Except.ok y =>
    if h : x = y then Decidable.isTrue (by rw [h])
    else Decidable.isFalse (fun he => h (Except.ok.inj he))
  | Except.ok _, Except.error _ => Decidable.isFalse (fun he => Except.noConfusion he)
  | Except.error _, Except.ok _ => Decidable.isFalse (fun he => Except.noConfusion he)
  | Except.error x, Except.error y =>
    if h : x = y then Decidable.isTrue (by rw [h])
    else Decidable.isFalse (fun he => h (Except.error.inj he))

def sampleArticle : Article :=
  { slug := "s", words := 1, title := some "T", summary := some "S",
    author := some "a", date := some 0, tags := ["t"] }

/-- All cached bodies agree with what the network would currently return
for their key. -/
def CacheNetInv (env : FetchEnv) (c : LRUCache) : Prop :=
  ∀ e ∈ c.entries, env.net e.key = Except.ok e.value

def c4GoodDoc : String := "hello world <!-- Tags: T -->"

def c4Env : FetchEnv :=
  { net := fun u =>
      if u = blogUrlOf "good" then Except.ok c4GoodDoc
      else Except.error "socket hang up",
    fsread := fun _ => Except.error "ENOENT" }

/-! ## Theorems -/

theorem replicate_string_length (n : Nat) :
    (String.mk (List.replicate n 'a')).length = n := by
  simp [String.length]

theorem oversizedValue_length : oversizedValue.length = 1024 * 1024 * 50 + 1 :=
  replicate_string_length (1024 * 1024 * 50 + 1)

-- Helper bounds for the eviction scan.
theorem takeWithin_bounds (mi mb : Nat) :
    ∀ (l : List CacheEntry) (cnt bytes : Nat), cnt ≤ mi → bytes ≤ mb →
      cnt + (takeWithin mi mb cnt bytes l).length ≤ mi ∧
      bytes + totalBytes (takeWithin mi mb cnt bytes l) ≤ mb := by
  intro l
  induction l with
  | nil => intro cnt bytes h1 h2; simp [takeWithin, totalBytes, h1, h2]
  | cons e rest ih =>
    intro cnt bytes h1 h2
    by_cases h : cnt + 1 ≤ mi ∧ bytes + e.size ≤ mb
    · have := ih (cnt + 1) (bytes + e.size) h.1 h.2
      simp only [takeWithin, if_pos h, List.length_cons, totalBytes]
      constructor
      · omega
      · omega
    · simp [takeWithin, if_neg h, h1, h2, totalBytes]

/-- After a `set` whose value fits in the byte budget (and with a positive
item budget), the entry count and total bytes are within budget. -/
theorem set_bounds (c : LRUCache) (now : Nat) (k v : String)
    (hv : v.length ≤ c.maxBytes) (hi : 1 ≤ c.maxItems) :
    (c.set now k v).entries.length ≤ c.maxItems ∧
    totalBytes (c.set now k v).entries ≤ c.maxBytes := by
  have h := takeWithin_bounds c.maxItems c.maxBytes
    (c.entries.filter (fun e => e.key ≠ k)) 1 v.length hi hv
  simp only [LRUCache.set, evictLRU, List.length_cons, totalBytes]
  constructor
  · omega
  · omega

theorem set_preserves_config (c : LRUCache) (now : Nat) (k v : String) :
    (c.set now k v).maxItems = c.maxItems ∧ (c.set now k v).maxBytes = c.maxBytes ∧
    (c.set now k v).maxAge = c.maxAge := by
  simp [LRUCache.set]

theorem applySets_config (calls : List (Nat × String × String)) :
    ∀ c : LRUCache, (applySets c calls).maxItems = c.maxItems ∧
      (applySets c calls).maxBytes = c.maxBytes := by
  induction calls with
  | nil => intro c; simp [applySets]
  | cons call rest ih =>
    intro c
    obtain ⟨now, k, v⟩ := call
    have := ih (c.set now k v)
    simpa [applySets, LRUCache.set] using this

theorem set_on_startup_entries (v : String) :
    (apiStartupCache.set 0 "k" v).entries
      = [{ key := "k", value := v, size := v.length, expires := 86400 }] := by
  simp [LRUCache.set, apiStartupCache, evictLRU, takeWithin]

theorem set_on_startup_totalBytes (v : String) :
    totalBytes ((apiStartupCache.set 0 "k" v).entries) = v.length := by
  rw [set_on_startup_entries v]
  simp [totalBytes]

/-- C1 counterexample: a single `set` of a value one byte over the 50 MB
budget leaves the startup-configured cache holding more resident bytes
than the configured byte budget. -/
theorem c1_counterexample :
    totalBytes ((apiStartupCache.set 0 "k" oversizedValue).entries) = 1024 * 1024 * 50 + 1 ∧
    ¬ totalBytes ((apiStartupCache.set 0 "k" oversizedValue).entries) ≤ 1024 * 1024 * 50 := by
  have h : totalBytes ((apiStartupCache.set 0 "k" oversizedValue).entries)
      = 1024 * 1024 * 50 + 1 := by
    rw [set_on_startup_totalBytes oversizedValue, oversizedValue_length]
  exact ⟨h, by omega⟩

/-- C1 (amended): for every sequence of `set` calls on the
startup-configured cache in which each stored value's byte size is at most
the configured byte budget, after each call the total resident bytes are
at most the byte budget and the entry count is at most the item budget. -/
theorem c1_cache_bounds (calls : List (Nat × String × String))
    (hne : calls ≠ [])
    (hsz : ∀ call ∈ calls, (call.2.2 : String).length ≤ 1024 * 1024 * 50) :
    (applySets apiStartupCache calls).entries.length ≤ 5000 ∧
    totalBytes (applySets apiStartupCache calls).entries ≤ 1024 * 1024 * 50 := by
  suffices h : ∀ (calls : List (Nat × String × String)) (c : LRUCache),
      c.maxItems = 5000 → c.maxBytes = 1024 * 1024 * 50 → calls ≠ [] →
      (∀ call ∈ calls, (call.2.2 : String).length ≤ 1024 * 1024 * 50) →
      (applySets c calls).entries.length ≤ 5000 ∧
      totalBytes (applySets c calls).entries ≤ 1024 * 1024 * 50 by
    exact h calls apiStartupCache rfl rfl hne hsz
  intro calls
  induction calls with
  | nil => intro c _ _ hne _; exact absurd rfl hne
  | cons call rest ih =>
    intro c hmi hmb _ hsz
    obtain ⟨now, k, v⟩ := call
    have hv : v.length ≤ c.maxBytes := by
      rw [hmb]; exact hsz (now, k, v) (List.mem_cons_self _ _)
    have hone : 1 ≤ c.maxItems := by omega
    rcases Decidable.em (rest = []) with hrest | hrest
    · subst hrest
      have := set_bounds c now k v hv hone
      simp only [applySets]
      rw [← hmi, ← hmb]
      exact this
    · have hcfg := set_preserves_config c now k v
      simp only [applySets]
      exact ih (c.set now k v) (by rw [hcfg.1, hmi]) (by rw [hcfg.2.1, hmb]) hrest
        (fun call hc => hsz call (List.mem_cons_of_mem _ hc))

/-- Witness for `c1_cache_bounds` at a concrete one-call sequence. -/
theorem c1_cache_bounds_witness :
    (applySets apiStartupCache [(0, "k", "ab")]).entries.length ≤ 5000 ∧
    totalBytes (applySets apiStartupCache [(0, "k", "ab")]).entries ≤ 1024 * 1024 * 50 :=
  c1_cache_bounds [(0, "k", "ab")] (by decide)
    (by intro call hc; simp at hc; subst hc; decide)

theorem glueRun_ne_nil (c : Char) (rs : List (List Char)) : glueRun c rs ≠ [] := by
  cases rs <;> simp [glueRun]

theorem glueRun_length_of_ne_nil (c : Char) (rs : List (List Char)) (h : rs ≠ []) :
    (glueRun c rs).length = rs.length := by
  cases rs with
  | nil => exact absurd rfl h
  | cons r rs2 => simp [glueRun]

theorem wordRuns_cons_cons_word (c d : Char) (rest2 : List Char)
    (h : isWordChar c = true) (hd : isWordChar d = true) :
    wordRuns (c :: d :: rest2) = glueRun c (wordRuns (d :: rest2)) := by
  simp [wordRuns, h, hd]

theorem wordRuns_cons_cons_nonword (c d : Char) (rest2 : List Char)
    (h : isWordChar c = true) (hd : isWordChar d = false) :
    wordRuns (c :: d :: rest2) = [c] :: wordRuns (d :: rest2) := by
  simp [wordRuns, h, hd]

theorem wordRuns_cons_nonword (c : Char) (rest : List Char)
    (h : isWordChar c = false) :
    wordRuns (c :: rest) = wordRuns rest := by
  cases rest <;> simp [wordRuns, h]

theorem wordRuns_ne_nil (c : Char) (rest : List Char) (h : isWordChar c = true) :
    wordRuns (c :: rest) ≠ [] := by
  cases rest with
  | nil => simp [wordRuns, h]
  | cons d rest2 =>
    by_cases hd : isWordChar d = true
    · rw [wordRuns_cons_cons_word c d rest2 h hd]
      exact glueRun_ne_nil c _
    · rw [wordRuns_cons_cons_nonword c d rest2 h (by simpa using hd)]
      simp

theorem risingEdges_cons (prev : Bool) (c : Char) (rest : List Char) :
    risingEdges prev (c :: rest)
      = (if isWordChar c && !prev then 1 else 0) + risingEdges (isWordChar c) rest := by
  simp [risingEdges]

theorem risingEdges_state (l : List Char) :
    risingEdges false l
      = risingEdges true l
        + (match l with
           | [] => 0
           | c :: _ => if isWordChar c then 1 else 0) := by
  cases l with
  | nil => simp [risingEdges]
  | cons c rest =>
    by_cases h : isWordChar c = true <;> simp [risingEdges_cons, h]
    omega

theorem wordRuns_length_eq_risingEdges (l : List Char) :
    (wordRuns l).length = risingEdges false l := by
  induction l with
  | nil => rfl
  | cons c rest ih =>
    by_cases h : isWordChar c = true
    · cases rest with
      | nil => simp [wordRuns, risingEdges, h]
      | cons d rest2 =>
        have hst := risingEdges_state (d :: rest2)
        by_cases hd : isWordChar d = true
        · rw [wordRuns_cons_cons_word c d rest2 h hd,
            glueRun_length_of_ne_nil c _ (wordRuns_ne_nil d rest2 hd),
            risingEdges_cons false c (d :: rest2)]
          rw [ih] at *
          simp [h, hd] at *
          omega
        · have hd' : isWordChar d = false := by simpa using hd
          rw [wordRuns_cons_cons_nonword c d rest2 h hd',
            risingEdges_cons false c (d :: rest2)]
          simp only [List.length_cons]
          rw [ih]
          simp [h, hd'] at *
          omega
    · have h' : isWordChar c = false := by simpa using h
      rw [wordRuns_cons_nonword c rest h', risingEdges_cons false c rest, h']
      simpa using ih

/-- C8 counterexample: for the article text "a-b" the computed word count
is 2 (two maximal `\w+` runs), while the number of whitespace-delimited
word tokens after the three strips is 1 — the two notions disagree, so
the computed word count is not the whitespace-delimited token count. -/
theorem c8_counterexample :
    jsWordCount "a-b" = some 2 ∧ wsTokenCount (stripAll "a-b") = 1 ∧ (2 : Nat) ≠ 1 := by
  refine ⟨by decide, by decide, by decide⟩

/-- C8 (amended): for every article text the computed word count equals
the number of maximal word-character runs remaining after stripping HTML
tags, stripping fenced code blocks, and collapsing Markdown links (and it
is `none` — a thrown `TypeError` downstream — exactly when that number
is zero). -/
theorem c8_word_count (s : String) :
    jsWordCount s
      = (if risingEdges false (stripAll s) = 0 then none
         else some (risingEdges false (stripAll s))) := by
  unfold jsWordCount
  cases hr : wordRuns (stripAll s) with
  | nil =>
    have h0 := wordRuns_length_eq_risingEdges (stripAll s)
    rw [hr] at h0
    simp at h0
    simp [← h0]
  | cons r rs =>
    have h0 := wordRuns_length_eq_risingEdges (stripAll s)
    rw [hr] at h0
    simp only [List.length_cons] at h0
    have : risingEdges false (stripAll s) ≠ 0 := by omega
    simp [this, ← h0]

/-- C10: there is a fetched article text — the empty string — on which
the preload word-count computation throws (`match(/\w+/g)` is `null` and
`.length` is read from it): the per-article step is a thrown `TypeError`,
and the preload of a slug fetching that text crashes instead of storing
an Article or passing an error to the final callback. -/
theorem c10_word_count_crash :
    jsWordCount "" = none ∧
    processArticle 0 "post" "" = Except.error "TypeError: Cannot read properties of null" ∧
    preloadBlog 0 false (cannedEnv (blogUrlOf "post") "") ["post"]
      = PreloadOutcome.crashed "TypeError: Cannot read properties of null" := by
  refine ⟨by decide, by decide, by decide⟩

/-- C7 counterexample: for the Markdown source consisting of exactly the
five front-matter comment lines of the claim, front-matter parsing does
not yield the claimed Article at all: the word-count step strips the
comments as HTML tags, `match(/\w+/g)` is `null`, and the processing
throws a `TypeError`. -/
theorem c7_counterexample :
    processArticle 0 "s" frontMatterDoc
      = Except.error "TypeError: Cannot read properties of null" := by
  decide

/-- C7 (amended): for a Markdown source consisting of the five
front-matter comment lines of the claim followed by body text with word
tokens, processing yields an Article with title "X", summary "Y", author
"a", date the seconds-since-epoch of 2024-01-01 00:00 local time (for
every local timezone offset `tz`), and tags ["A", "B"]. -/
theorem c7_front_matter (tz : Int) :
    processArticle tz "s" frontMatterDocBody
      = Except.ok { slug := "s", words := 2, title := some "X", summary := some "Y",
                    author := some "a", date := some (localMidnightEpoch tz 2024 1 1),
                    tags := ["A", "B"] } := by
  rfl

/-- C5 counterexample: an article source missing the required `Title`
front-matter field is not treated as a preload error: the preload
completes successfully and silently stores an Article whose title is
absent. -/
theorem c5_counterexample :
    preloadBlog 0 false (cannedEnv (blogUrlOf "s") noTitleDoc) ["s"]
      = PreloadOutcome.ok
          [("s", { slug := "s", words := 1, title := none, summary := none,
                   author := none, date := some 1704067200, tags := ["A", "B"] })]
          (apiStartupCache.set 0 (blogUrlOf "s") noTitleDoc) := by
  decide

/-- C5 (amended): only a missing `tags` field aborts the article's
processing, and as a thrown `TypeError` (a crash), not a callback error;
a missing `title` (likewise `summary`/`author`) is silently stored as an
absent field on a successfully produced Article. -/
theorem c5_missing_field (tz : Int) (slug text : String) :
    ((extractMeta text).tags = none → jsWordCount text ≠ none →
      processArticle tz slug text
        = Except.error "TypeError: Cannot read properties of undefined")
    ∧ ((extractMeta text).title = none → (extractMeta text).tags ≠ none →
        jsWordCount text ≠ none →
        ∃ a, processArticle tz slug text = Except.ok a ∧ a.title = none) := by
  constructor
  · intro htags hw
    unfold processArticle
    cases hwc : jsWordCount text with
    | none => exact absurd hwc hw
    | some w => simp [htags]
  · intro htitle htags hw
    unfold processArticle
    cases hwc : jsWordCount text with
    | none => exact absurd hwc hw
    | some w =>
      cases hts : (extractMeta text).tags with
      | none => exact absurd hts htags
      | some ts =>
        simp only [hts]
        refine ⟨_, rfl, ?_⟩
        simpa using htitle

/-- Witness for `c5_missing_field` at concrete inputs: a source with no
`Tags` comment crashes; a source with no `Title` comment is silently
stored with an absent title. -/
theorem c5_missing_field_witness :
    processArticle 0 "s" noTagsDoc
      = Except.error "TypeError: Cannot read properties of undefined"
    ∧ ∃ a, processArticle 0 "s" noTitleDoc = Except.ok a ∧ a.title = none :=
  ⟨(c5_missing_field 0 "s" noTagsDoc).1 (by decide) (by decide),
   (c5_missing_field 0 "s" noTitleDoc).2 (by decide) (by decide) (by decide)⟩

/-- C2 counterexample: debug mode enabled, URL "u" (which does not match
the blog-content source pattern), source content "a" at the first call
and "b" at the second: the first rendered request caches the raw text
under "u", and the second rendered request re-renders that stale cached
raw text, returning HTML for "a" although the current content is "b". -/
theorem c2_counterexample :
    (get_cached_html true id (cannedEnv "u" "a") apiStartupCache 0 "u").1 = Except.ok "a"
    ∧ (cannedEnv "u" "b").net "u" = Except.ok "b"
    ∧ (get_cached_html true id (cannedEnv "u" "b")
        ((get_cached_html true id (cannedEnv "u" "a") apiStartupCache 0 "u").2) 0 "u").1
        = Except.ok "a"
    ∧ ("a" : String) ≠ "b" := by
  refine ⟨by decide, by decide, by decide, by decide⟩

/-- C2 (amended): for URLs matching the blog-content source pattern —
the ones the debug/local mode redirects to the local filesystem — two
consecutive rendered requests in debug mode (given no resident
rendered-HTML entry, which debug mode never creates) each return HTML
rendered from the content current at the time of the call, and leave the
cache unchanged. -/
theorem c2_debug_fresh (render : String → String) (env1 env2 : FetchEnv)
    (c : LRUCache) (now : Nat) (url slug t1 t2 : String)
    (hslug : blogSlugOf url = some slug)
    (hmiss : c.findEntry now ("MARKED:" ++ url) = none)
    (h1 : env1.fsread (localPathOf slug) = Except.ok t1)
    (h2 : env2.fsread (localPathOf slug) = Except.ok t2) :
    get_cached_html true render env1 c now url = (Except.ok (render t1), c)
    ∧ get_cached_html true render env2 c now url = (Except.ok (render t2), c) := by
  constructor
  · simp [get_cached_html, get_cached_url, hmiss, hslug, h1]
  · simp [get_cached_html, get_cached_url, hmiss, hslug, h2]

/-- Witness for `c2_debug_fresh` at a concrete blog URL whose local file
holds "one" at the first call and "two" at the second. -/
theorem c2_debug_fresh_witness :
    get_cached_html true id
        { net := fun _ => Except.error "E",
          fsread := fun p => if p = localPathOf "hello" then Except.ok "one"
                             else Except.error "ENOENT" }
        apiStartupCache 0 (blogUrlOf "hello") = (Except.ok "one", apiStartupCache)
    ∧ get_cached_html true id
        { net := fun _ => Except.error "E",
          fsread := fun p => if p = localPathOf "hello" then Except.ok "two"
                             else Except.error "ENOENT" }
        apiStartupCache 0 (blogUrlOf "hello") = (Except.ok "two", apiStartupCache) :=
  c2_debug_fresh id
    { net := fun _ => Except.error "E",
      fsread := fun p => if p = localPathOf "hello" then Except.ok "one"
                         else Except.error "ENOENT" }
    { net := fun _ => Except.error "E",
      fsread := fun p => if p = localPathOf "hello" then Except.ok "two"
                         else Except.error "ENOENT" }
    apiStartupCache 0 (blogUrlOf "hello") "hello" "one" "two"
    (by decide) (by decide) (by decide) (by decide)

/-- C3 counterexample: the rendered-HTML cache key prefix is "MARKED:",
not "RENDERED:": a resident unexpired entry under "RENDERED:u" is not
consulted (the request re-fetches and re-renders), and a rendered request
on the startup cache creates "MARKED:u", not "RENDERED:u". -/
theorem c3_counterexample :
    ((apiStartupCache.set 0 "RENDERED:u" "stale").has 0 "RENDERED:u" = true
      ∧ (get_cached_html false (fun s => "<html>" ++ s) (cannedEnv "u" "raw")
          (apiStartupCache.set 0 "RENDERED:u" "stale") 0 "u").1 = Except.ok "<html>raw")
    ∧ ((get_cached_html false (fun s => "<html>" ++ s) (cannedEnv "u" "raw")
          apiStartupCache 0 "u").2.has 0 "MARKED:u" = true
        ∧ (get_cached_html false (fun s => "<html>" ++ s) (cannedEnv "u" "raw")
            apiStartupCache 0 "u").2.has 0 "RENDERED:u" = false) := by
  refine ⟨⟨by decide, by decide⟩, by decide, by decide⟩

/-- C3 (amended): `get_cached_html` checks the cache under the key
"MARKED:" + url; on a miss it calls `get_cached_url` (which fetches and
caches the raw text under the url itself), renders the text, and — when
not in debug mode — stores the rendered HTML under that same "MARKED:"
key, which differs from the raw key for every URL. -/
theorem c3_rendered_key (render : String → String) (env : FetchEnv)
    (c : LRUCache) (now : Nat) (url text : String)
    (hmiss : c.findEntry now ("MARKED:" ++ url) = none)
    (hraw : c.findEntry now url = none)
    (hnet : env.net url = Except.ok text) :
    get_cached_html false render env c now url
      = (Except.ok (render text),
         (c.set now url text).set now ("MARKED:" ++ url) (render text))
    ∧ ("MARKED:" ++ url) ≠ url := by
  constructor
  · cases hslug : blogSlugOf url with
    | none => simp [get_cached_html, get_cached_url, hmiss, hraw, hnet, hslug]
    | some s => simp [get_cached_html, get_cached_url, hmiss, hraw, hnet, hslug]
  · intro he
    have hlen := congrArg String.length he
    rw [String.length_append] at hlen
    have h7 : ("MARKED:" : String).length = 7 := by decide
    omega

/-- Witness for `c3_rendered_key` at a concrete URL. -/
theorem c3_rendered_key_witness :
    get_cached_html false id (cannedEnv "u" "raw") apiStartupCache 0 "u"
      = (Except.ok "raw",
         (apiStartupCache.set 0 "u" "raw").set 0 ("MARKED:" ++ "u") "raw")
    ∧ ("MARKED:" ++ "u") ≠ "u" :=
  c3_rendered_key id (cannedEnv "u" "raw") apiStartupCache 0 "u" "raw"
    (by decide) (by decide) (by decide)

/-- C9: an on-demand request for a known slug whose upstream fetch fails
(no fresh raw or rendered entry resident, network error from the
upstream) yields the not-found response of `handle_blog`, and the cache
is returned unchanged: the failed operation creates no cache entry. -/
theorem c9_fetch_fail_not_found (render : String → String) (env : FetchEnv)
    (articles : List (String × Article)) (order : List String)
    (c : LRUCache) (now : Nat) (slug : String) (article : Article) (e : String)
    (hart : lookupArticle articles slug = some article)
    (hm : c.findEntry now ("MARKED:" ++ blogUrlOf slug) = none)
    (hr : c.findEntry now (blogUrlOf slug) = none)
    (hnet : env.net (blogUrlOf slug) = Except.error e) :
    handle_blog false render env articles order c now slug
      = (BlogResponse.notFound "Unable to locate the requested file.", c) := by
  cases hslug : blogSlugOf (blogUrlOf slug) with
  | none => simp [handle_blog, get_cached_html, get_cached_url, hart, hm, hr, hnet, hslug]
  | some s => simp [handle_blog, get_cached_html, get_cached_url, hart, hm, hr, hnet, hslug]

/-- Witness for `c9_fetch_fail_not_found`: a known slug "s" on the fresh
startup cache with a failing upstream. -/
theorem c9_fetch_fail_not_found_witness :
    handle_blog false id
        { net := fun _ => Except.error "socket hang up", fsread := fun _ => Except.error "ENOENT" }
        [("s", sampleArticle)] ["s"] apiStartupCache 0 "s"
      = (BlogResponse.notFound "Unable to locate the requested file.", apiStartupCache) :=
  c9_fetch_fail_not_found id
    { net := fun _ => Except.error "socket hang up", fsread := fun _ => Except.error "ENOENT" }
    [("s", sampleArticle)] ["s"] apiStartupCache 0 "s" sampleArticle "socket hang up"
    (by decide) (by decide) (by decide) (by decide)

theorem beginsWith_append (p r : List Char) : beginsWith p (p ++ r) = true := by
  induction p with
  | nil => rfl
  | cons c ps ih => simp [beginsWith, ih]

theorem endsWithChars_append (p l : List Char) : endsWithChars p (l ++ p) = true := by
  unfold endsWithChars
  rw [List.reverse_append]
  exact beginsWith_append p.reverse l.reverse

theorem dropWhile_of_head_false (p : Char → Bool) (l : List Char)
    (h : ∀ c, l.head? = some c → p c = false) : l.dropWhile p = l := by
  cases l with
  | nil => rfl
  | cons c rest => rw [List.dropWhile_cons, h c rfl]; simp

theorem jsTrim_sandwich (a z : Char) (l : List Char)
    (ha : jsWsChar a = false) (hz : jsWsChar z = false) :
    jsTrim (a :: (l ++ [z])) = a :: (l ++ [z]) := by
  unfold jsTrim
  rw [List.dropWhile_cons, ha]
  simp only [Bool.false_eq_true, if_false]
  rw [show (a :: (l ++ [z])).reverse = z :: (l.reverse ++ [a]) by simp]
  rw [List.dropWhile_cons, hz]
  simp

theorem stripPara_wrap (mid : List Char) (h : mid ≠ []) :
    stripPara ("<p>".data ++ (mid ++ "</p>".data)) = mid := by
  unfold stripPara
  have h1 : beginsWith "<p>".data ("<p>".data ++ (mid ++ "</p>".data)) = true :=
    beginsWith_append _ _
  have h2 : endsWithChars "</p>".data ("<p>".data ++ (mid ++ "</p>".data)) = true := by
    rw [show "<p>".data ++ (mid ++ "</p>".data) = ("<p>".data ++ mid) ++ "</p>".data by simp]
    exact endsWithChars_append _ _
  have h3 : 8 ≤ ("<p>".data ++ (mid ++ "</p>".data)).length := by
    cases mid with
    | nil => exact absurd rfl h
    | cons c r => simp [List.length_append]
  rw [if_pos ⟨h1, h2, h3⟩]
  unfold dropLastN
  rw [show (3 : Nat) = ("<p>".data : List Char).length from rfl, List.drop_left]
  simp [List.length_append]

theorem takeWhile_append_stop (p : Char → Bool) (l1 : List Char) (x : Char) (r : List Char)
    (h : ∀ c ∈ l1, p c = true) (hx : p x = false) :
    (l1 ++ x :: r).takeWhile p = l1 := by
  induction l1 with
  | nil => simp [List.takeWhile_cons, hx]
  | cons a l1' ih =>
    rw [List.cons_append, List.takeWhile_cons, h a (by simp)]
    simp only [if_true]
    rw [ih (fun c hc => h c (by simp [hc]))]

theorem admonitionMatch_marker (kw b : List Char) (hk : kw ≠ [])
    (hw : ∀ c ∈ kw, isWordChar c = true)
    (hb : ∀ c, b.head? = some c → jsWsChar c = false) :
    admonitionMatch ('[' :: '!' :: (kw ++ (']' :: ' ' :: b))) = some (kw, b) := by
  unfold admonitionMatch
  have ht : (kw ++ (']' :: ' ' :: b)).takeWhile isWordChar = kw :=
    takeWhile_append_stop isWordChar kw ']' (' ' :: b) hw (by decide)
  simp only [ht, if_neg hk]
  rw [List.drop_left' rfl]
  show some (kw, List.dropWhile jsWsChar (' ' :: b)) = some (kw, b)
  rw [List.dropWhile_cons]
  simp only [show jsWsChar ' ' = true by decide, if_true]
  rw [dropWhile_of_head_false jsWsChar b hb]

/-- C6: a blockquote whose (paragraph-wrapped) content starts with the
`[!KEYWORD]` marker — keyword nonempty, of word characters, matched
case-insensitively — renders as a styled admonition block whose title is
the capitalized keyword and whose body is the content with the leading
marker (and the whitespace after it) stripped; in particular
"<p>[!WARNING] Be careful</p>" yields the block with title "Warning" and
body "Be careful", with no literal "[!WARNING]" marker in the output. -/
theorem c6_admonition :
    (∀ kw b : String, kw.data ≠ [] → (∀ c ∈ kw.data, isWordChar c = true) →
      (∀ c, b.data.head? = some c → jsWsChar c = false) →
      blockquoteRender ("<p>[!" ++ kw ++ "] " ++ b ++ "</p>")
        = admonitionHtml (kw.data.map Char.toLower)
            (admonitionIcon (kw.data.map Char.toLower))
            (ucfirst (kw.data.map Char.toLower)) b.data)
    ∧ (blockquoteRender "<p>[!WARNING] Be careful</p>"
          = "<div class=\"blocknote warning\"><div class=\"bn_title\"><i class=\"mdi mdi-alert-circle\">&nbsp;</i>Warning</div><div class=\"bn_content\">Be careful</div></div>"
        ∧ containsSub "[!WARNING]".data
            (blockquoteRender "<p>[!WARNING] Be careful</p>").data = false) := by
  constructor
  · intro kw b hk hw hb
    simp only [blockquoteRender]
    have hd : ("<p>[!" ++ kw ++ "] " ++ b ++ "</p>").data
        = '<' :: (('p' :: '>' :: '[' :: '!' ::
            (kw.data ++ (']' :: ' ' :: (b.data ++ ['<', '/', 'p'])))) ++ ['>']) := by
      simp [String.data_append, show ("<p>[!" : String).data = ['<', 'p', '>', '[', '!'] from rfl,
        show ("] " : String).data = [']', ' '] from rfl,
        show ("</p>" : String).data = ['<', '/', 'p', '>'] from rfl]
    rw [hd, jsTrim_sandwich '<' '>' _ (by decide) (by decide)]
    rw [show '<' :: (('p' :: '>' :: '[' :: '!' ::
          (kw.data ++ (']' :: ' ' :: (b.data ++ ['<', '/', 'p'])))) ++ ['>'])
        = "<p>".data ++ (('[' :: '!' :: (kw.data ++ (']' :: ' ' :: b.data))) ++ "</p>".data) by
      simp [show ("<p>" : String).data = ['<', 'p', '>'] from rfl,
        show ("</p>" : String).data = ['<', '/', 'p', '>'] from rfl]]
    rw [stripPara_wrap _ (by simp)]
    rw [admonitionMatch_marker kw.data b.data hk hw hb]
  · refine ⟨by decide, by decide⟩

/-- Witness for the universally quantified part of `c6_admonition`, at
keyword "WARNING" and body "Be careful". -/
theorem c6_admonition_witness :
    blockquoteRender ("<p>[!" ++ "WARNING" ++ "] " ++ "Be careful" ++ "</p>")
      = admonitionHtml ("WARNING".data.map Char.toLower)
          (admonitionIcon ("WARNING".data.map Char.toLower))
          (ucfirst ("WARNING".data.map Char.toLower)) "Be careful".data :=
  c6_admonition.1 "WARNING" "Be careful" (by decide)
    (by decide) (by decide)

theorem mem_takeWithin (mi mb : Nat) (l : List CacheEntry) (e : CacheEntry) :
    ∀ (cnt bytes : Nat), e ∈ takeWithin mi mb cnt bytes l → e ∈ l := by
  induction l with
  | nil => intro cnt bytes h; simp [takeWithin] at h
  | cons a rest ih =>
    intro cnt bytes h
    simp only [takeWithin] at h
    by_cases hc : cnt + 1 ≤ mi ∧ bytes + a.size ≤ mb
    · rw [if_pos hc] at h
      rcases List.mem_cons.mp h with h1 | h2
      · exact List.mem_cons.mpr (Or.inl h1)
      · exact List.mem_cons.mpr (Or.inr (ih _ _ h2))
    · rw [if_neg hc] at h
      cases h

theorem mem_set_entries (c : LRUCache) (now : Nat) (k v : String) (e : CacheEntry) :
    e ∈ (c.set now k v).entries → (e.key = k ∧ e.value = v) ∨ e ∈ c.entries := by
  intro h
  simp only [LRUCache.set, evictLRU] at h
  rcases List.mem_cons.mp h with h1 | h2
  · left
    rw [h1]
    exact ⟨rfl, rfl⟩
  · right
    exact List.mem_of_mem_filter (mem_takeWithin _ _ _ _ _ _ h2)

theorem mem_touch_entries (c : LRUCache) (now : Nat) (k : String) (e : CacheEntry) :
    e ∈ (c.touch now k).entries → e ∈ c.entries := by
  unfold LRUCache.touch
  cases hf : c.findEntry now k with
  | none => exact fun h => h
  | some f =>
    intro h
    rcases List.mem_cons.mp h with h1 | h2
    · unfold LRUCache.findEntry at hf
      rw [h1]
      exact List.mem_of_find?_eq_some hf
    · exact List.mem_of_mem_filter h2

theorem findEntry_spec (c : LRUCache) (now : Nat) (k : String) (e : CacheEntry)
    (h : c.findEntry now k = some e) : e ∈ c.entries ∧ e.key = k := by
  unfold LRUCache.findEntry at h
  have hm := List.mem_of_find?_eq_some h
  have hp := List.find?_some h
  simp only [Bool.and_eq_true, beq_iff_eq, decide_eq_true_eq] at hp
  exact ⟨hm, hp.1⟩

theorem inv_set (env : FetchEnv) (c : LRUCache) (now : Nat) (k v : String)
    (hinv : CacheNetInv env c) (hk : env.net k = Except.ok v) :
    CacheNetInv env (c.set now k v) := by
  intro e he
  rcases mem_set_entries c now k v e he with ⟨h1, h2⟩ | h
  · rw [h1, h2]; exact hk
  · exact hinv e h

theorem inv_touch (env : FetchEnv) (c : LRUCache) (now : Nat) (k : String)
    (hinv : CacheNetInv env c) : CacheNetInv env (c.touch now k) :=
  fun e he => hinv e (mem_touch_entries c now k e he)

theorem get_cached_url_false (env : FetchEnv) (c : LRUCache) (now : Nat) (url : String) :
    get_cached_url false env c now url
      = match c.findEntry now url with
        | some e => (Except.ok e.value, c.touch now url)
        | none =>
          match env.net url with
          | Except.error e => (Except.error e, c)
          | Except.ok text => (Except.ok text, c.set now url text) := by
  rfl

theorem preload_fail_aux (tz : Int) (env : FetchEnv) :
    ∀ (slugs : List String) (arts : List (String × Article)) (c : LRUCache),
      CacheNetInv env c →
      (∀ s t, s ∈ slugs → env.net (blogUrlOf s) = Except.ok t →
        ∃ a, processArticle tz s t = Except.ok a) →
      (∃ s, s ∈ slugs ∧ ∃ e, env.net (blogUrlOf s) = Except.error e) →
      ∃ e' c', preloadBlogAux tz false env slugs arts c 0 = PreloadOutcome.cberr e' c' := by
  intro slugs
  induction slugs with
  | nil =>
    intro arts c _ _ hex
    rcases hex with ⟨s, hs, _⟩
    cases hs
  | cons s0 rest ih =>
    intro arts c hinv hparse hex
    simp only [preloadBlogAux, get_cached_url_false]
    cases hf : c.findEntry 0 (blogUrlOf s0) with
    | some en =>
      obtain ⟨hmem, hkey⟩ := findEntry_spec c 0 (blogUrlOf s0) en hf
      have hok : env.net (blogUrlOf s0) = Except.ok en.value := by
        have h := hinv en hmem
        rwa [hkey] at h
      rcases hex with ⟨sf, hsf, e, herr⟩
      have hsf' : sf ∈ rest := by
        rcases List.mem_cons.mp hsf with h1 | h2
        · subst h1
          rw [hok] at herr
          cases herr
        · exact h2
      obtain ⟨a, ha⟩ := hparse s0 en.value (List.mem_cons_self _ _) hok
      simp only [ha]
      exact ih _ _ (inv_touch env c 0 (blogUrlOf s0) hinv)
        (fun s t hs => hparse s t (List.mem_cons_of_mem _ hs))
        ⟨sf, hsf', e, herr⟩
    | none =>
      cases hnet : env.net (blogUrlOf s0) with
      | error e => exact ⟨e, c, rfl⟩
      | ok t =>
        rcases hex with ⟨sf, hsf, e, herr⟩
        have hsf' : sf ∈ rest := by
          rcases List.mem_cons.mp hsf with h1 | h2
          · subst h1
            rw [hnet] at herr
            cases herr
          · exact h2
        obtain ⟨a, ha⟩ := hparse s0 t (List.mem_cons_self _ _) hnet
        simp only [ha]
        exact ih _ _ (inv_set env c 0 (blogUrlOf s0) t hinv hnet)
          (fun s t' hs => hparse s t' (List.mem_cons_of_mem _ hs))
          ⟨sf, hsf', e, herr⟩

/-- C4: if the fetch of any configured slug's raw Markdown fails during
startup preload (and every slug whose fetch succeeds parses without
throwing), the preload operation as a whole completes with an error
passed to its final callback — startup never completes with an article
index missing a configured article. -/
theorem c4_preload_failfast (tz : Int) (env : FetchEnv) (slugs : List String)
    (s : String) (e : String)
    (hjoin : s ∈ slugs)
    (hfail : env.net (blogUrlOf s) = Except.error e)
    (hparse : ∀ s' t, s' ∈ slugs → env.net (blogUrlOf s') = Except.ok t →
      ∃ a, processArticle tz s' t = Except.ok a) :
    ∃ e' c', preloadBlog tz false env slugs = PreloadOutcome.cberr e' c' := by
  apply preload_fail_aux tz env slugs [] apiStartupCache
  · intro en hen
    cases hen
  · exact hparse
  · exact ⟨s, hjoin, e, hfail⟩

/-- Witness for `c4_preload_failfast`: slugs ["good", "bad"], where
"good" fetches a parsable article and "bad" fails with a network error. -/
theorem c4_preload_failfast_witness :
    ∃ e' c', preloadBlog 0 false c4Env ["good", "bad"] = PreloadOutcome.cberr e' c' :=
  c4_preload_failfast 0 c4Env ["good", "bad"] "bad" "socket hang up"
    (by decide) (by decide)
    (by
      intro s' t hs hnet
      rcases List.mem_cons.mp hs with h1 | h2
      · subst h1
        have ht : t = c4GoodDoc := by
          have : c4Env.net (blogUrlOf "good") = Except.ok c4GoodDoc := by decide
          rw [this] at hnet
          exact (Except.ok.inj hnet).symm
        subst ht
        exact ⟨{ slug := "good", words := 2, title := none, summary := none,
                 author := none, date := none, tags := ["T"] }, by decide⟩
      · rcases List.mem_cons.mp h2 with h1 | h3
        · subst h1
          have : c4Env.net (blogUrlOf "bad") = Except.error "socket hang up" := by decide
          rw [this] at hnet
          cases hnet
        · cases h3)
